import Mathlib

/-!
Verification of the MCP-Endpoint mediation layer: a shallow embedding of the
Bedrock MCP client (tool-name sanitisation, query-shape optimisation, tool-name
resolution, tool-result decoding, the per-turn processing loops in both the
stateless and the stateful branch), of the compiled stateful client variant,
of the DynamoDB server's queryTable/scanTable fallback logic, and of the two
HTTP /query handlers.  External collaborators (the Bedrock model invocation,
the MCP tool-execution transport, JSON.parse / JSON.stringify) are supplied as
oracle parameters; everything written in the repository itself is translated
directly.
-/

namespace MCPEndpoint

/-- Model of a JSON value as produced by JSON.parse (numbers as integers). -/
inductive Json where
  | null : Json
  | bool (b : Bool) : Json
  | num (n : Int) : Json
  | str (s : String) : Json
  | arr (xs : List Json) : Json
  | obj (fields : List (String × Json)) : Json

/-- JavaScript truthiness of a JSON value. -/
def Json.truthy : Json → Bool
  | .null => false
  | .bool b => b
  | .num n => n != 0
  | .str s => s != ""
  | .arr _ => true
  | .obj _ => true

/-- Field access on a JSON object; undefined elsewhere. -/
def Json.getField : Json → String → Option Json
  | .obj fs, k => (fs.find? (fun p => p.1 == k)).map (fun p => p.2)
  | _, _ => none

/-- JavaScript String.prototype.includes: does s contain sub as a substring? -/
def jsIncludes (s sub : String) : Bool :=
  (List.range (s.length + 1)).any
    (fun i => (s.toList.drop i).take sub.length == sub.toList)

/-- Characters the sanitiser keeps: the regex class [A-Za-z0-9_-]. -/
def isAllowedChar (c : Char) : Bool :=
  c.isAlpha || c.isDigit || c == '_' || c == '-'

/-- Per-character action of name.replace with the class above and a global flag. -/
def sanitizeChar (c : Char) : Char :=
  if isAllowedChar c then c else '_'

/-- sanitizeToolName from the client: replace every character outside
[A-Za-z0-9_-] with an underscore. -/
def sanitizeToolName (name : String) : String :=
  String.mk (name.data.map sanitizeChar)

/-- Arguments of a tool call as seen by the client.  Fields the client never
inspects (attribute-name and attribute-value maps) are carried opaquely. -/
structure ToolArgs where
  tableName : Option String := none
  keyConditionExpression : Option String := none
  filterExpression : Option String := none
  expressionAttributeNames : Option String := none
  expressionAttributeValues : Option String := none
  limit : Option Nat := none
  indexName : Option String := none
  scanIndexForward : Option Bool := none
deriving DecidableEq

/-- optimizeQuery from the client: a dynamodb:query_table call whose key
condition mentions "Age" but neither "Name" nor "#name" is rewritten to a
dynamodb:scan_table call, moving the key condition into the filter slot. -/
def optimizeQuery (toolName : String) (toolArgs : ToolArgs) : String × ToolArgs :=
  if toolName = "dynamodb:query_table" then
    let keyCondition := toolArgs.keyConditionExpression.getD ""
    if jsIncludes keyCondition "Age" && !jsIncludes keyCondition "Name"
        && !jsIncludes keyCondition "#name" then
      ("dynamodb:scan_table",
        { tableName := toolArgs.tableName
          filterExpression := toolArgs.keyConditionExpression
          expressionAttributeNames := toolArgs.expressionAttributeNames
          expressionAttributeValues := toolArgs.expressionAttributeValues
          limit := toolArgs.limit })
    else (toolName, toolArgs)
  else (toolName, toolArgs)

/-- this.sanitizedToOriginalToolName[sanitized] || fallback: map lookup with
JavaScript falsy fallback (an absent entry, or an empty-string entry, yields
the fallback name, which at both call sites is the optimised tool name). -/
def resolveMcpToolName (mapping : List (String × String))
    (sanitized fallback : String) : String :=
  match mapping.lookup sanitized with
  | some orig => if orig = "" then fallback else orig
  | none => fallback

/-- Message roles of the Bedrock conversation protocol. -/
inductive Role where
  | user : Role
  | assistant : Role
deriving DecidableEq

/-- A content block of a model message: text, a tool-use request, or a
tool result (content already flattened to its display string). -/
inductive ContentBlock where
  | text (t : String) : ContentBlock
  | toolUse (id name : String) (input : ToolArgs) : ContentBlock
  | toolResult (tool_use_id : String) (content : String) : ContentBlock
deriving DecidableEq

/-- A ConversationMessage: a role together with ordered content blocks. -/
structure ConversationMessage where
  role : Role
  content : List ContentBlock
deriving DecidableEq

/-- A tool descriptor from the catalog. -/
structure Tool where
  name : String
  description : String
deriving DecidableEq

/-- The mutable fields of the client that the claims observe. -/
structure State where
  tools : List Tool := []
  mapping : List (String × String) := []
  conversationHistory : List ConversationMessage := []

/-- The sanitised-to-original mapping rebuilt on connect: last write wins. -/
def insertMapping (m : List (String × String)) (k v : String) :
    List (String × String) :=
  if m.any (fun p => p.1 == k) then
    m.map (fun p => if p.1 == k then (k, v) else p)
  else m ++ [(k, v)]

/-- connectToServer rebuilds the mapping from every tool's sanitised name. -/
def buildMapping (tools : List Tool) : List (String × String) :=
  tools.foldl (fun m t => insertMapping m (sanitizeToolName t.name) t.name) []

/-- The shape of mcp.callTool result content: a raw string, a list of blocks
(each recorded by its text field when that field is a string), or neither. -/
inductive McpContent where
  | str (s : String) : McpContent
  | blocks (bs : List (Option String)) : McpContent
  | other : McpContent
deriving DecidableEq

/-- The parse step of the result decoding: a string content is parsed; for a
block list the first block's string text field is parsed; otherwise, or when
the parse throws, the parsed result stays null. -/
def parseToolContent (parse : String → Option Json) : McpContent → Option Json
  | .str s => parse s
  | .blocks bs =>
    match bs with
    | some t :: _ => parse t
    | _ => none
  | .other => none

/-- The display text produced from a tool result: the pretty-printed
re-serialisation when the parsed value is truthy, the empty string otherwise
(both on parse failure and on a falsy parsed value). -/
def decodeResultText (parse : String → Option Json) (stringify : Json → String)
    (c : McpContent) : String :=
  match parseToolContent parse c with
  | some v => if v.truthy then stringify v else ""
  | none => ""

/-- finalText.join with a newline separator. -/
def joinNL (xs : List String) : String := String.intercalate "\n" xs

/-- The follow-up exchange built by the stateless branch: the user message,
an assistant message carrying the tool-use block, and a user message carrying
the tool-result block. -/
def followUpMessages (userMessage : ConversationMessage)
    (toolUseBlock toolResultBlock : ContentBlock) : List ConversationMessage :=
  [userMessage,
   { role := .assistant, content := [toolUseBlock] },
   { role := .user, content := [toolResultBlock] }]

/-- The external collaborators of one processQuery turn: JSON.parse and
JSON.stringify(·, null, 2); the first Bedrock invocation (a function of the
submitted message list); the MCP tool executions and the follow-up Bedrock
invocations, indexed by occurrence and given the request. -/
structure Env where
  parse : String → Option Json
  stringify : Json → String
  firstResponse : List ConversationMessage → Except String (List ContentBlock)
  callTool : Nat → String → ToolArgs → Except String McpContent
  followUp : Nat → List ConversationMessage → Except String (List ContentBlock)

/-- Text blocks of a model response, in order. -/
def textsOf (bs : List ContentBlock) : List String :=
  bs.filterMap (fun b => match b with | .text t => some t | _ => none)

namespace Index

/-- The message-list construction of processQuery in src part_000: stateless
submits only the user message and leaves the history alone; otherwise the
user message is appended to the history and the full history is submitted.
Returns (submitted messages, new history). -/
def buildMessages (history : List ConversationMessage)
    (userMessage : ConversationMessage) (stateless : Bool) :
    List ConversationMessage × List ConversationMessage :=
  if stateless then ([userMessage], history)
  else (history ++ [userMessage], history ++ [userMessage])

/-- The stateless branch's loop over the first response's content blocks.
A text block is appended to the accumulator.  A tool-use block is optimised,
resolved and executed; a rejected call makes the whole turn return the inline
error string immediately; a successful call is decoded, a three-message
follow-up exchange is submitted (recorded in the returned trace), and the
follow-up's text blocks are appended.  Other blocks are skipped. -/
def statelessLoop (env : Env) (mapping : List (String × String))
    (userMessage : ConversationMessage) :
    List ContentBlock → Nat → Nat → List String →
    List (List ConversationMessage) → String × List (List ConversationMessage)
  | [], _, _, finalText, trace => (joinNL finalText, trace)
  | .text t :: rest, k, j, finalText, trace =>
    statelessLoop env mapping userMessage rest k j (finalText ++ [t]) trace
  | .toolResult _ _ :: rest, k, j, finalText, trace =>
    statelessLoop env mapping userMessage rest k j finalText trace
  | .toolUse id name input :: rest, k, j, finalText, trace =>
    match env.callTool k
        (resolveMcpToolName mapping
          (sanitizeToolName (optimizeQuery name input).1)
          (optimizeQuery name input).1)
        (optimizeQuery name input).2 with
    | .error err =>
      ("❌ Tool " ++ sanitizeToolName (optimizeQuery name input).1
        ++ " failed: " ++ err, trace)
    | .ok rc =>
      match env.followUp j
          (followUpMessages userMessage (.toolUse id name input)
            (.toolResult id (decodeResultText env.parse env.stringify rc))) with
      | .error e =>
        ("Error: " ++ e,
         trace ++ [followUpMessages userMessage (.toolUse id name input)
            (.toolResult id (decodeResultText env.parse env.stringify rc))])
      | .ok fub =>
        statelessLoop env mapping userMessage rest (k + 1) (j + 1)
          (finalText ++ textsOf fub)
          (trace ++ [followUpMessages userMessage (.toolUse id name input)
            (.toolResult id (decodeResultText env.parse env.stringify rc))])

/-- The stateful branch's loop in src part_000: a rejected tool call appends
the inline error string and continues with the next block; a successful call
whose parsed result is truthy appends the pretty-printed result; a falsy or
unparsable result appends nothing.  No follow-up invocation and no history
mutation happen in this branch. -/
def statefulLoop (env : Env) (mapping : List (String × String)) :
    List ContentBlock → Nat → List String → String
  | [], _, finalText => joinNL finalText
  | .text t :: rest, k, finalText =>
    statefulLoop env mapping rest k (finalText ++ [t])
  | .toolResult _ _ :: rest, k, finalText =>
    statefulLoop env mapping rest k finalText
  | .toolUse _ name input :: rest, k, finalText =>
    match env.callTool k
        (resolveMcpToolName mapping
          (sanitizeToolName (optimizeQuery name input).1)
          (optimizeQuery name input).1)
        (optimizeQuery name input).2 with
    | .error err =>
      statefulLoop env mapping rest (k + 1)
        (finalText ++ ["❌ Tool " ++ sanitizeToolName (optimizeQuery name input).1
          ++ " failed: " ++ err])
    | .ok rc =>
      match parseToolContent env.parse rc with
      | some v =>
        if v.truthy then
          statefulLoop env mapping rest (k + 1) (finalText ++ [env.stringify v])
        else
          statefulLoop env mapping rest (k + 1) finalText
      | none => statefulLoop env mapping rest (k + 1) finalText

/-- processQuery of src part_000.  Builds the message list (mutating history
only in stateful mode), issues the first model invocation, and runs the
branch selected by the stateless flag; a model-invocation failure returns the
error-prefixed string.  Returns the final text and the new client state. -/
def processQuery (env : Env) (st : State) (query : String)
    (stateless : Bool) : String × State :=
  let userMessage : ConversationMessage := { role := .user, content := [.text query] }
  let built := buildMessages st.conversationHistory userMessage stateless
  match env.firstResponse built.1 with
  | .error e => ("Error: " ++ e, { st with conversationHistory := built.2 })
  | .ok blocks =>
    if stateless then
      ((statelessLoop env st.mapping userMessage blocks 0 0 [] []).1,
       { st with conversationHistory := built.2 })
    else
      (statefulLoop env st.mapping blocks 0 [],
       { st with conversationHistory := built.2 })

/-- A sequence of stateless turns threaded through the client state. -/
def runStatelessCalls : List (Env × String) → State → State
  | [], st => st
  | c :: cs, st => runStatelessCalls cs (processQuery c.1 st c.2 true).2

end Index

namespace Build

/-- The always-stateful loop of the compiled client in src part_001.  The
assistant content accumulates text and (sanitised) tool-use blocks across the
whole response; each successful tool call appends an assistant message
carrying the accumulated content and a user message carrying the tool result
to the history, then submits the full history as the follow-up request
(recorded in the trace).  Only a leading text block of the follow-up response
is kept.  A rejected tool call appends the inline error string and
continues.  A rejected follow-up invocation aborts via the outer catch. -/
def loop (env : Env) (mapping : List (String × String)) :
    List ContentBlock → List ConversationMessage → List ContentBlock →
    List String → Nat → Nat → List (List ConversationMessage) →
    String × List ConversationMessage × List (List ConversationMessage)
  | [], hist, _, finalText, _, _, trace => (joinNL finalText, hist, trace)
  | .text t :: rest, hist, ac, finalText, k, j, trace =>
    loop env mapping rest hist (ac ++ [.text t]) (finalText ++ [t]) k j trace
  | .toolResult _ _ :: rest, hist, ac, finalText, k, j, trace =>
    loop env mapping rest hist ac finalText k j trace
  | .toolUse id name input :: rest, hist, ac, finalText, k, j, trace =>
    match env.callTool k
        (resolveMcpToolName mapping
          (sanitizeToolName (optimizeQuery name input).1)
          (optimizeQuery name input).1)
        (optimizeQuery name input).2 with
    | .error err =>
      loop env mapping rest hist ac
        (finalText ++ ["❌ Tool " ++ sanitizeToolName (optimizeQuery name input).1
          ++ " failed: " ++ err]) (k + 1) j trace
    | .ok rc =>
      let ac2 := ac ++ [ContentBlock.toolUse id
        (sanitizeToolName (optimizeQuery name input).1) (optimizeQuery name input).2]
      let hist2 := hist ++ [ConversationMessage.mk Role.assistant ac2,
        ConversationMessage.mk Role.user [ContentBlock.toolResult id
          (decodeResultText env.parse env.stringify rc)]]
      match env.followUp j hist2 with
      | .error e => ("Error: " ++ e, hist2, trace ++ [hist2])
      | .ok fub =>
        match fub with
        | .text t :: _ =>
          loop env mapping rest
            (hist2 ++ [ConversationMessage.mk Role.assistant [ContentBlock.text t]])
            ac2 (finalText ++ [t]) (k + 1) (j + 1) (trace ++ [hist2])
        | _ =>
          loop env mapping rest hist2 ac2 finalText (k + 1) (j + 1)
            (trace ++ [hist2])

/-- processQuery of the compiled client in src part_001: always appends the
user message to the history and submits the full history, then runs the loop
above.  Returns the final text, the new state, and the trace of follow-up
request message lists. -/
def processQuery (env : Env) (st : State) (query : String) :
    String × State × List (List ConversationMessage) :=
  let userMessage : ConversationMessage := { role := .user, content := [.text query] }
  let hist0 := st.conversationHistory ++ [userMessage]
  match env.firstResponse hist0 with
  | .error e => ("Error: " ++ e, { st with conversationHistory := hist0 }, [])
  | .ok blocks =>
    let r := loop env st.mapping blocks hist0 [] [] 0 0 []
    (r.1, { st with conversationHistory := r.2.1 }, r.2.2)

end Build

namespace Dynamo

/-- An error raised by the DynamoDB SDK: its name and its message. -/
structure DynErr where
  name : String
  message : String
deriving DecidableEq

/-- A successful query/scan response, with unmarshalled items carried
opaquely as strings. -/
structure DynOutcome where
  items : List String := []
  count : Nat := 0
  scannedCount : Nat := 0
  lastEvaluatedKey : Option String := none
  consumedCapacity : Option String := none
deriving DecidableEq

/-- The value produced by normalizeAttributeValues for one attribute: the
payload of a truthy typed wrapper field (N, S or B, selected in that order),
or the value itself.  Number coercion and marshalling are kept symbolic. -/
inductive NormVal where
  | fromN (raw : Json) : NormVal
  | fromS (raw : Json) : NormVal
  | fromB (raw : Json) : NormVal
  | plain (raw : Json) : NormVal

/-- The per-value branch of normalizeAttributeValues: a truthy object with a
truthy N, S or B field is unwrapped (picking the first defined field in the
order N, S, B); every other value is kept as is. -/
def normalizeVal (v : Json) : NormVal :=
  let isObj : Bool := match v with | .obj _ => true | _ => false
  let truthyField : Option Json → Bool := fun o =>
    match o with | some j => j.truthy | none => false
  if v.truthy && isObj && (truthyField (v.getField "N")
      || truthyField (v.getField "S") || truthyField (v.getField "B")) then
    match v.getField "N" with
    | some nv => .fromN nv
    | none =>
      match v.getField "S" with
      | some sv => .fromS sv
      | none =>
        match v.getField "B" with
        | some bv => .fromB bv
        | none => .plain v
  else .plain v

/-- normalizeAttributeValues over an already-decoded attribute-value object
(the claims never exercise the JSON-string input branch of the source, so the
modelled domain is an object or an absent/falsy value). -/
def normalizeAttributeValues (vals : Option (List (String × Json))) :
    Option (List (String × NormVal)) :=
  match vals with
  | none => none
  | some kvs => some (kvs.map (fun p => (p.1, normalizeVal p.2)))

/-- [keyConditionExpression, filterExpression].filter(Boolean): keep the
present, non-empty expression strings. -/
def presentExprs (es : List (Option String)) : List String :=
  (es.filterMap id).filter (fun s => s != "")

/-- cleanExpressionAttributeNames: absent names pass through; a key equal to
"#" throws; otherwise only keys occurring in the joined expressions are kept,
and an empty remainder becomes undefined. -/
def cleanExpressionAttributeNames (names : Option (List (String × String)))
    (expressions : List String) :
    Except DynErr (Option (List (String × String))) :=
  match names with
  | none => .ok none
  | some kvs =>
    if kvs.any (fun p => p.1 == "#") then
      .error { name := "Error",
               message := "Invalid ExpressionAttributeNames key: \"#\" is not allowed. Use descriptive names like \"#age\", \"#name\"." }
    else
      let combined := String.intercalate " " expressions
      let cleaned := kvs.filter (fun p => jsIncludes combined p.1)
      .ok (if cleaned.length > 0 then some cleaned else none)

/-- The parameters accepted by queryTable / scanTable. -/
structure DynParams where
  tableName : String
  indexName : Option String := none
  keyConditionExpression : Option String := none
  filterExpression : Option String := none
  expressionAttributeNames : Option (List (String × String)) := none
  expressionAttributeValues : Option (List (String × Json)) := none
  limit : Option Nat := none
  scanIndexForward : Option Bool := none

/-- The QueryCommand sent to DynamoDB (marshalling kept symbolic). -/
structure QueryCmd where
  tableName : String
  indexName : Option String
  keyConditionExpression : Option String
  expressionAttributeValues : Option (List (String × NormVal))
  expressionAttributeNames : Option (List (String × String))
  filterExpression : Option String
  limit : Option Nat
  scanIndexForward : Option Bool

/-- The ScanCommand sent to DynamoDB. -/
structure ScanCmd where
  tableName : String
  indexName : Option String
  filterExpression : Option String
  expressionAttributeValues : Option (List (String × NormVal))
  expressionAttributeNames : Option (List (String × String))
  limit : Option Nat

/-- One backend interaction issued by the tool handlers. -/
inductive DynCmd where
  | query (c : QueryCmd) : DynCmd
  | scan (c : ScanCmd) : DynCmd

/-- The DynamoDB client, as an oracle from commands to responses. -/
structure DynEnv where
  sendQuery : QueryCmd → Except DynErr DynOutcome
  sendScan : ScanCmd → Except DynErr DynOutcome

/-- The JSON-encoded object a tool handler returns (fields irrelevant to the
claims carried as options). -/
structure DynToolResult where
  success : Bool
  message : String
  items : List String := []
  errorType : Option String := none
  count : Option Nat := none
  scannedCount : Option Nat := none
  lastEvaluatedKey : Option String := none
  consumedCapacity : Option String := none

/-- The template suffix naming the index when one is given and non-empty. -/
def indexSuffix (ix : Option String) : String :=
  match ix with
  | some s => if s = "" then "" else " (index: " ++ s ++ ")"
  | none => ""

/-- The QueryCommand queryTable builds from its params and cleaned names. -/
def mkQueryCmd (p : DynParams) (cn : Option (List (String × String))) :
    QueryCmd :=
  { tableName := p.tableName
    indexName := p.indexName
    keyConditionExpression := p.keyConditionExpression
    expressionAttributeValues := normalizeAttributeValues p.expressionAttributeValues
    expressionAttributeNames := cn
    filterExpression := p.filterExpression
    limit := p.limit
    scanIndexForward := p.scanIndexForward }

/-- The ScanCommand scanTable builds from its params and cleaned names. -/
def mkScanCmd (p : DynParams) (cn : Option (List (String × String))) :
    ScanCmd :=
  { tableName := p.tableName
    indexName := p.indexName
    filterExpression := p.filterExpression
    expressionAttributeValues := normalizeAttributeValues p.expressionAttributeValues
    expressionAttributeNames := cn
    limit := p.limit }

/-- scanTable: cleans the names (a throw is caught by the surrounding catch),
sends a ScanCommand and reports success with the unmarshalled items, or a
failure object with empty items.  The second component records the backend
commands issued. -/
def scanTable (env : DynEnv) (p : DynParams) : DynToolResult × List DynCmd :=
  match cleanExpressionAttributeNames p.expressionAttributeNames
      (presentExprs [p.filterExpression]) with
  | .error e =>
    ({ success := false, message := "Failed to scan table: " ++ e.message,
       items := [], errorType := some e.name }, [])
  | .ok cn =>
    match env.sendScan (mkScanCmd p cn) with
    | .ok out =>
      ({ success := true,
         message := "Scan executed successfully on table " ++ p.tableName
           ++ indexSuffix p.indexName,
         items := out.items, count := some out.count,
         scannedCount := some out.scannedCount,
         lastEvaluatedKey := out.lastEvaluatedKey,
         consumedCapacity := out.consumedCapacity }, [DynCmd.scan (mkScanCmd p cn)])
    | .error e =>
      ({ success := false, message := "Failed to scan table: " ++ e.message,
         items := [], errorType := some e.name }, [DynCmd.scan (mkScanCmd p cn)])

/-- The scan params queryTable builds for the fallback: the key-condition
text moves into the filter-expression slot; names, values and limit carry
over; no key condition and no sort order are passed. -/
def fallbackScanParams (p : DynParams) : DynParams :=
  { tableName := p.tableName
    indexName := p.indexName
    filterExpression := p.keyConditionExpression
    expressionAttributeNames := p.expressionAttributeNames
    expressionAttributeValues := p.expressionAttributeValues
    limit := p.limit }

/-- The predicate selecting the validation failures that trigger the scan
fallback. -/
def isFallbackError (e : DynErr) : Bool :=
  e.name == "ValidationException"
    && (jsIncludes e.message "Query condition missed key schema element"
      || jsIncludes e.message "Invalid KeyConditionExpression"
      || jsIncludes e.message "Syntax error")

/-- queryTable: cleans the names (a throw lands in the generic catch, whose
error name is "Error" and so never triggers the fallback), sends a
QueryCommand and reports success; on a ValidationException whose message
matches one of the three fallback patterns it performs exactly one scan
fallback via scanTable, prefixing the returned message with the conversion
note (scanTable catches its own failures, so the inner catch of the source is
unreachable); any other error yields a failure object with empty items. -/
def queryTable (env : DynEnv) (p : DynParams) : DynToolResult × List DynCmd :=
  match cleanExpressionAttributeNames p.expressionAttributeNames
      (presentExprs [p.keyConditionExpression, p.filterExpression]) with
  | .error e =>
    ({ success := false, message := "Failed to query table: " ++ e.message,
       items := [], errorType := some e.name }, [])
  | .ok cn =>
    match env.sendQuery (mkQueryCmd p cn) with
    | .ok out =>
      ({ success := true,
         message := "Query executed successfully on table " ++ p.tableName
           ++ indexSuffix p.indexName,
         items := out.items, count := some out.count,
         scannedCount := some out.scannedCount,
         lastEvaluatedKey := out.lastEvaluatedKey,
         consumedCapacity := out.consumedCapacity }, [DynCmd.query (mkQueryCmd p cn)])
    | .error e =>
      if isFallbackError e then
        let fb := scanTable env (fallbackScanParams p)
        ({ fb.1 with message := "Query converted to scan: " ++ fb.1.message },
         DynCmd.query (mkQueryCmd p cn) :: fb.2)
      else
        ({ success := false, message := "Failed to query table: " ++ e.message,
           items := [], errorType := some e.name }, [DynCmd.query (mkQueryCmd p cn)])

end Dynamo

namespace Endpoint

/-- A JavaScript value in the query field of a request body. -/
inductive JsValue where
  | undef : JsValue
  | null : JsValue
  | bool (b : Bool) : JsValue
  | num (n : Int) : JsValue
  | str (s : String) : JsValue
  | obj : JsValue
deriving DecidableEq

/-- JavaScript truthiness of such a value. -/
def JsValue.truthy : JsValue → Bool
  | .undef => false
  | .null => false
  | .bool b => b
  | .num n => n != 0
  | .str s => s != ""
  | .obj => true

/-- typeof v === "string". -/
def JsValue.isString : JsValue → Bool
  | .str _ => true
  | _ => false

/-- The body of an HTTP response: an error field or a result field. -/
inductive RespBody where
  | errorField (msg : String) : RespBody
  | resultField (r : String) : RespBody
deriving DecidableEq

/-- An HTTP response: status code and body. -/
structure HttpResponse where
  status : Nat
  body : RespBody
deriving DecidableEq

/-- The POST /query handler of startEndpoint in src part_000: the history is
reset first; a falsy or non-string query is rejected with 400 before any
orchestration; otherwise processQuery runs and its outcome maps to 200 or
500.  Returns the response, whether orchestration was invoked, and the
history left behind by the reset. -/
def startEndpointHandler (history : List ConversationMessage)
    (query : JsValue) (process : Except String String) :
    HttpResponse × Bool × List ConversationMessage :=
  let _ := history
  if !query.truthy || !query.isString then
    ({ status := 400,
       body := .errorField "Missing or invalid 'query' field in request body." },
     false, [])
  else
    match process with
    | .ok r => ({ status := 200, body := .resultField r }, true, [])
    | .error e => ({ status := 500, body := .errorField e }, true, [])

/-- The POST /query handler of src/endpoint.js: 503 when the client is not
ready; then only a falsy query is rejected with 400; any truthy query —
string or not — is passed to mcpProcessQuery. -/
def endpointJsHandler (mcpReady : Bool) (query : JsValue)
    (process : Except String String) : HttpResponse × Bool :=
  if !mcpReady then
    ({ status := 503, body := .errorField "MCP client not ready." }, false)
  else if !query.truthy then
    ({ status := 400, body := .errorField "Query is required." }, false)
  else
    match process with
    | .ok r => ({ status := 200, body := .resultField r }, true)
    | .error e => ({ status := 500, body := .errorField e }, true)

end Endpoint

/-! ## Helper lemmas -/

/-- Sanitising is per-character idempotent: a kept character is kept again,
and the underscore substitute is itself in the allowed class. -/
theorem sanitizeChar_idem (c : Char) :
    sanitizeChar (sanitizeChar c) = sanitizeChar c := by
  by_cases h : isAllowedChar c = true
  · simp [sanitizeChar, h]
  · simp [sanitizeChar, h]

/-- Mapping the sanitiser twice over a character list equals mapping once. -/
theorem map_sanitizeChar_idem (l : List Char) :
    (l.map sanitizeChar).map sanitizeChar = l.map sanitizeChar := by
  induction l with
  | nil => rfl
  | cons c cs ih => simp [ih, sanitizeChar_idem]

/-- On a list of allowed characters the sanitiser map is the identity. -/
theorem map_sanitizeChar_id (l : List Char)
    (h : ∀ c ∈ l, isAllowedChar c = true) : l.map sanitizeChar = l := by
  induction l with
  | nil => rfl
  | cons c cs ih =>
    have hc := h c (by simp)
    simp [sanitizeChar, hc, ih (fun d hd => h d (by simp [hd]))]

/-! ## Claim theorems -/

/-- C8: sanitizeToolName acts by replacing exactly the characters outside
[A-Za-z0-9_-] with an underscore, it is idempotent, and it is the identity on
names built only from characters of that class. -/
theorem c8_sanitize (n : String) :
    (sanitizeToolName n).data = n.data.map sanitizeChar
    ∧ sanitizeToolName (sanitizeToolName n) = sanitizeToolName n
    ∧ ((∀ c ∈ n.data, isAllowedChar c = true) → sanitizeToolName n = n) := by
  refine ⟨rfl, ?_, ?_⟩
  · show String.mk ((n.data.map sanitizeChar).map sanitizeChar)
      = String.mk (n.data.map sanitizeChar)
    rw [map_sanitizeChar_idem]
  · intro h
    show String.mk (n.data.map sanitizeChar) = n
    rw [map_sanitizeChar_id n.data h]

/-- C8 witness: idempotence at the real catalog name, and identity on a name
made only of allowed characters. -/
theorem c8_sanitize_witness :
    sanitizeToolName (sanitizeToolName "dynamodb:query_table")
      = sanitizeToolName "dynamodb:query_table"
    ∧ sanitizeToolName "get-item_2" = "get-item_2" :=
  ⟨(c8_sanitize "dynamodb:query_table").2.1,
   (c8_sanitize "get-item_2").2.2 (by decide)⟩

/-- C3: a dynamodb:query_table call whose key condition contains "Age" but
neither "Name" nor "#name" is rewritten to dynamodb:scan_table with the key
condition moved into filterExpression and tableName, attribute names,
attribute values and limit carried unchanged; any other tool name, and any
query_table call not matching the heuristic, is returned unchanged. -/
theorem c3_optimizeQuery (name : String) (args : ToolArgs) :
    (name = "dynamodb:query_table" →
      jsIncludes (args.keyConditionExpression.getD "") "Age" = true →
      jsIncludes (args.keyConditionExpression.getD "") "Name" = false →
      jsIncludes (args.keyConditionExpression.getD "") "#name" = false →
      optimizeQuery name args =
        ("dynamodb:scan_table",
          { tableName := args.tableName
            filterExpression := args.keyConditionExpression
            expressionAttributeNames := args.expressionAttributeNames
            expressionAttributeValues := args.expressionAttributeValues
            limit := args.limit }))
    ∧ (name ≠ "dynamodb:query_table" → optimizeQuery name args = (name, args))
    ∧ ((jsIncludes (args.keyConditionExpression.getD "") "Age"
          && !jsIncludes (args.keyConditionExpression.getD "") "Name"
          && !jsIncludes (args.keyConditionExpression.getD "") "#name") = false →
        optimizeQuery name args = (name, args)) := by
  refine ⟨?_, ?_, ?_⟩
  · intro hn hAge hName hAlias
    simp [optimizeQuery, hn, hAge, hName, hAlias]
  · intro hn
    simp [optimizeQuery, hn]
  · intro hcond
    by_cases hn : name = "dynamodb:query_table"
    · simp [optimizeQuery, hn, hcond]
    · simp [optimizeQuery, hn]

/-- C3 witness: the spec's concrete rewrite example, and stability of a
non-query tool call. -/
theorem c3_optimizeQuery_witness :
    optimizeQuery "dynamodb:query_table"
        { tableName := some "People", keyConditionExpression := some "Age > :a",
          limit := some 5 }
      = ("dynamodb:scan_table",
         { tableName := some "People", filterExpression := some "Age > :a",
           limit := some 5 })
    ∧ optimizeQuery "dynamodb:get_item" { tableName := some "People" }
      = ("dynamodb:get_item", { tableName := some "People" }) :=
  ⟨(c3_optimizeQuery "dynamodb:query_table"
      { tableName := some "People", keyConditionExpression := some "Age > :a",
        limit := some 5 }).1 rfl (by decide) (by decide) (by decide),
   (c3_optimizeQuery "dynamodb:get_item" { tableName := some "People" }).2.1
     (by decide)⟩

/-- C5: a tool name already in sanitised form that is absent from the
sanitised-to-original mapping resolves to itself: the lookup falls back to
the optimised name, which equals the safe name. -/
theorem c5_resolveUnregistered (mapping : List (String × String)) (name : String)
    (hsafe : sanitizeToolName name = name)
    (habsent : mapping.lookup (sanitizeToolName name) = none) :
    resolveMcpToolName mapping (sanitizeToolName name) name = name := by
  rw [hsafe] at habsent ⊢
  simp [resolveMcpToolName, habsent]

/-- C5 witness: an unregistered sanitised name resolves to itself against a
nonempty mapping. -/
theorem c5_resolveUnregistered_witness :
    resolveMcpToolName [("dynamodb_query_table", "dynamodb:query_table")]
        (sanitizeToolName "dynamodb_scan_table") "dynamodb_scan_table"
      = "dynamodb_scan_table" :=
  c5_resolveUnregistered [("dynamodb_query_table", "dynamodb:query_table")]
    "dynamodb_scan_table" (by decide) (by decide)

/-- C2 counterexample: a string tool result that fails to parse yields an
empty display text, not the original raw string as the claim states. -/
theorem c2_decode_counterexample :
    decodeResultText (fun _ => none) (fun _ => "") (.str "not json") = ""
    ∧ ("" : String) ≠ "not json" :=
  ⟨rfl, by decide⟩

/-- C2 as amended: the decoding attempts a parse; on success to a truthy
value the display text is the stringified value, on parse failure — and
likewise on success to a falsy value — the display text is the empty string;
the first string text field of a block list is decoded like a raw string; the
decoding is a total function (never raises). -/
theorem c2_decode (parse : String → Option Json) (stringify : Json → String)
    (s : String) :
    (parse s = none → decodeResultText parse stringify (.str s) = "")
    ∧ (∀ v, parse s = some v →
        decodeResultText parse stringify (.str s)
          = if v.truthy then stringify v else "")
    ∧ (∀ bs, decodeResultText parse stringify (.blocks (some s :: bs))
        = decodeResultText parse stringify (.str s)) := by
  refine ⟨?_, ?_, ?_⟩
  · intro h
    simp [decodeResultText, parseToolContent, h]
  · intro v h
    simp [decodeResultText, parseToolContent, h]
  · intro bs
    simp [decodeResultText, parseToolContent]

/-- C2 witness: a parse success pretty-prints, a parse failure yields the
empty display text. -/
theorem c2_decode_witness :
    decodeResultText (fun s => if s = "x" then some (Json.str "y") else none)
        (fun _ => "PRETTY") (.str "x") = "PRETTY"
    ∧ decodeResultText (fun s => if s = "x" then some (Json.str "y") else none)
        (fun _ => "PRETTY") (.str "z") = "" := by
  constructor
  · have h := (c2_decode (fun s => if s = "x" then some (Json.str "y") else none)
      (fun _ => "PRETTY") "x").2.1 (Json.str "y") (by simp)
    simpa [Json.truthy] using h
  · exact (c2_decode (fun s => if s = "x" then some (Json.str "y") else none)
      (fun _ => "PRETTY") "z").1 (by simp)

/-- C10: a tool result whose content parses to a falsy JSON value is treated
like a parse failure: the stateful loop appends nothing to the output
accumulator for it, and the display text is the empty string. -/
theorem c10_falsyParsedResult (env : Env) (m : List (String × String))
    (id name : String) (input : ToolArgs) (rest : List ContentBlock)
    (k : Nat) (acc : List String) (rc : McpContent) (v : Json)
    (hcall : env.callTool k
        (resolveMcpToolName m (sanitizeToolName (optimizeQuery name input).1)
          (optimizeQuery name input).1) (optimizeQuery name input).2 = .ok rc)
    (hparse : parseToolContent env.parse rc = some v)
    (hfalsy : v.truthy = false) :
    Index.statefulLoop env m (.toolUse id name input :: rest) k acc
      = Index.statefulLoop env m rest (k + 1) acc
    ∧ decodeResultText env.parse env.stringify rc = "" := by
  constructor
  · simp [Index.statefulLoop, hcall, hparse, hfalsy]
  · simp [decodeResultText, hparse, hfalsy]

/-- Concrete environment for the C10 witness: the tool returns the JSON text
null, which parses successfully to a falsy value. -/
def c10env : Env :=
  { parse := fun s => if s = "null" then some Json.null else none
    stringify := fun _ => "X"
    firstResponse := fun _ => .ok []
    callTool := fun _ _ _ => .ok (.str "null")
    followUp := fun _ _ => .ok [] }

/-- C10 witness: on the JSON text null the stateful loop leaves the
accumulator untouched and the display text is empty. -/
theorem c10_falsyParsedResult_witness :
    Index.statefulLoop c10env [] [.toolUse "i" "t" {}] 0 ["kept"]
      = Index.statefulLoop c10env [] [] 1 ["kept"]
    ∧ decodeResultText c10env.parse c10env.stringify (.str "null") = "" :=
  c10_falsyParsedResult c10env [] "i" "t" {} [] 0 ["kept"] (.str "null")
    Json.null rfl rfl rfl

/-- C9 counterexample: the plain endpoint.js handler passes a truthy
non-string query (the number 5) to orchestration with a 200 response instead
of rejecting it with 400. -/
theorem c9_endpointJs_counterexample :
    (Endpoint.endpointJsHandler true (.num 5) (.ok "r")).2 = true
    ∧ (Endpoint.endpointJsHandler true (.num 5) (.ok "r")).1.status = 200 :=
  ⟨rfl, rfl⟩

/-- C9 as amended: the startEndpoint handler of the TypeScript client rejects
every absent, falsy or non-string query with status 400, an error body and no
orchestration; the plain endpoint.js handler (after its 503 readiness check)
rejects only falsy query values that way, so truthy non-string queries reach
orchestration there. -/
theorem c9_badRequest (history : List ConversationMessage) (query : Endpoint.JsValue)
    (process : Except String String)
    (hbad : query.isString = false ∨ query.truthy = false) :
    ((Endpoint.startEndpointHandler history query process).1.status = 400
      ∧ (∃ msg, (Endpoint.startEndpointHandler history query process).1.body
          = .errorField msg)
      ∧ (Endpoint.startEndpointHandler history query process).2.1 = false)
    ∧ (query.truthy = false →
        (Endpoint.endpointJsHandler true query process).1.status = 400
        ∧ (Endpoint.endpointJsHandler true query process).2 = false) := by
  constructor
  · have hcond : (!query.truthy || !query.isString) = true := by
      rcases hbad with h | h <;> simp [h]
    refine ⟨?_, ⟨"Missing or invalid 'query' field in request body.", ?_⟩, ?_⟩ <;>
      simp [Endpoint.startEndpointHandler, hcond]
  · intro h
    constructor <;> simp [Endpoint.endpointJsHandler, h]

/-- Helper for C6: one stateless turn leaves the persistent history exactly
as it was. -/
theorem processQuery_stateless_history (env : Env) (st : State) (q : String) :
    ((Index.processQuery env st q true).2).conversationHistory
      = st.conversationHistory := by
  unfold Index.processQuery
  simp only [Index.buildMessages, if_pos]
  cases env.firstResponse [{ role := .user, content := [.text q] }] <;> simp

/-- C6: stateless isolation — any sequence of stateless turns leaves the
persistent conversation history equal (same length, same contents) to what it
was before, and a stateless turn submits exactly the single current user
message to the model. -/
theorem c6_statelessIsolation (calls : List (Env × String)) (st : State) :
    (Index.runStatelessCalls calls st).conversationHistory
      = st.conversationHistory
    ∧ ∀ (h : List ConversationMessage) (u : ConversationMessage),
        (Index.buildMessages h u true).1 = [u] := by
  refine ⟨?_, fun h u => rfl⟩
  induction calls generalizing st with
  | nil => rfl
  | cons c cs ih =>
    show (Index.runStatelessCalls cs (Index.processQuery c.1 st c.2 true).2).conversationHistory
      = st.conversationHistory
    rw [ih, processQuery_stateless_history]

/-- Helper for C1: the stateful loop appends a run of leading text blocks to
the accumulator verbatim. -/
theorem statefulLoop_texts (env : Env) (m : List (String × String))
    (pre : List String) :
    ∀ (rest : List ContentBlock) (k : Nat) (acc : List String),
      Index.statefulLoop env m (pre.map ContentBlock.text ++ rest) k acc
        = Index.statefulLoop env m rest k (acc ++ pre) := by
  induction pre with
  | nil => intro rest k acc; simp
  | cons t ts ih =>
    intro rest k acc
    show Index.statefulLoop env m (ContentBlock.text t :: (ts.map ContentBlock.text ++ rest)) k acc = _
    rw [Index.statefulLoop, ih]
    simp

/-- Concrete run for the C1 counterexample: the first response carries a text
block and then a tool use whose backend call rejects. -/
def c1env : Env :=
  { parse := fun _ => none
    stringify := fun _ => ""
    firstResponse := fun _ => .ok [.text "hello", .toolUse "id1" "mytool" {}]
    callTool := fun _ _ _ => .error "boom"
    followUp := fun _ _ => .ok [] }

/-- C1 counterexample: in stateless mode a rejected tool call makes
processQuery return the inline error string alone — the Text block produced
before the failing tool-use block is omitted from the result, contradicting
the claim for the stateless branch. -/
theorem c1_stateless_counterexample :
    (Index.processQuery c1env {} "q" true).1 = "❌ Tool mytool failed: boom"
    ∧ jsIncludes (Index.processQuery c1env {} "q" true).1 "hello" = false := by
  constructor
  · rfl
  · decide

/-- C1 as amended: in stateful mode a rejected backend tool call is contained
as the claim states — the inline error string carrying the sanitised tool
name and the failure reason is appended after the Text blocks produced before
the failing block, and processing continues with the remaining blocks; in
stateless mode processQuery still returns (rather than throws) a string with
the sanitised name and the reason, but it is returned immediately as the
whole result, so earlier Text blocks are dropped and the remaining blocks are
not processed. -/
theorem c1_toolFailure (env : Env) (m : List (String × String))
    (pre : List String) (id name : String) (input : ToolArgs)
    (rest : List ContentBlock) (k : Nat) (acc : List String) (err : String)
    (hcall : env.callTool k
        (resolveMcpToolName m (sanitizeToolName (optimizeQuery name input).1)
          (optimizeQuery name input).1) (optimizeQuery name input).2
      = .error err) :
    Index.statefulLoop env m
        (pre.map ContentBlock.text ++ ContentBlock.toolUse id name input :: rest) k acc
      = Index.statefulLoop env m rest (k + 1)
          (acc ++ pre ++ ["❌ Tool " ++ sanitizeToolName (optimizeQuery name input).1
            ++ " failed: " ++ err])
    ∧ ∀ (u : ConversationMessage) (rest2 : List ContentBlock) (j : Nat)
        (ft : List String) (tr : List (List ConversationMessage)),
        (Index.statelessLoop env m u (ContentBlock.toolUse id name input :: rest2)
          k j ft tr).1
          = "❌ Tool " ++ sanitizeToolName (optimizeQuery name input).1
            ++ " failed: " ++ err := by
  constructor
  · rw [statefulLoop_texts]
    simp [Index.statefulLoop, hcall]
  · intro u rest2 j ft tr
    simp [Index.statelessLoop, hcall]

/-- Concrete environment for the C1 witness: one successful text block, then
a failing tool call, then another text block that must still be processed. -/
def c1wenv : Env :=
  { parse := fun _ => none
    stringify := fun _ => ""
    firstResponse := fun _ => .ok []
    callTool := fun _ _ _ => .error "denied"
    followUp := fun _ _ => .ok [] }

/-- C1 witness: a concrete stateful run keeps the preceding text, appends the
inline error string, and continues with the trailing block, while the
stateless loop returns the bare error string. -/
theorem c1_toolFailure_witness :
    Index.statefulLoop c1wenv []
        ([ "before" ].map ContentBlock.text
          ++ ContentBlock.toolUse "i" "t" {} :: [ContentBlock.text "after"]) 0 []
      = Index.statefulLoop c1wenv [] [ContentBlock.text "after"] 1
          ([] ++ ["before"] ++ ["❌ Tool t failed: denied"])
    ∧ (Index.statelessLoop c1wenv [] { role := .user, content := [.text "q"] }
        (ContentBlock.toolUse "i" "t" {} :: [ContentBlock.text "after"]) 0 0 [] []).1
      = "❌ Tool t failed: denied" := by
  have h := c1_toolFailure c1wenv [] ["before"] "i" "t" {}
    [ContentBlock.text "after"] 0 [] "denied" rfl
  exact ⟨h.1, h.2 { role := .user, content := [.text "q"] }
    [ContentBlock.text "after"] 0 [] []⟩

/-- Helper for C7: every follow-up request the stateless loop submits beyond
the incoming trace is a three-message exchange built by followUpMessages from
the user message, the tool-use block and a tool-result block with the same
id. -/
theorem statelessLoop_trace_spec (env : Env) (m : List (String × String))
    (u : ConversationMessage) :
    ∀ (blocks : List ContentBlock) (k j : Nat) (ft : List String)
      (tr : List (List ConversationMessage)) (msgs : List ConversationMessage),
      msgs ∈ (Index.statelessLoop env m u blocks k j ft tr).2 →
      msgs ∈ tr ∨ ∃ id name input rt,
        msgs = followUpMessages u (.toolUse id name input) (.toolResult id rt) := by
  intro blocks
  induction blocks with
  | nil =>
    intro k j ft tr msgs h
    exact Or.inl h
  | cons b rest ih =>
    intro k j ft tr msgs h
    cases b with
    | text t =>
      rw [Index.statelessLoop] at h
      exact ih k j (ft ++ [t]) tr msgs h
    | toolResult i c =>
      rw [Index.statelessLoop] at h
      exact ih k j ft tr msgs h
    | toolUse id name input =>
      rw [Index.statelessLoop] at h
      generalize hc : env.callTool k
          (resolveMcpToolName m (sanitizeToolName (optimizeQuery name input).1)
            (optimizeQuery name input).1) (optimizeQuery name input).2 = c at h
      cases c with
      | error err => exact Or.inl h
      | ok rc =>
        dsimp only at h
        generalize hf : env.followUp j
            (followUpMessages u (.toolUse id name input)
              (.toolResult id (decodeResultText env.parse env.stringify rc))) = f at h
        cases f with
        | error e =>
          dsimp only at h
          simp only [List.mem_append, List.mem_singleton] at h
          rcases h with h | h
          · exact Or.inl h
          · exact Or.inr ⟨id, name, input, _, h⟩
        | ok fub =>
          dsimp only at h
          rcases ih (k + 1) (j + 1) (ft ++ textsOf fub) _ msgs h with h2 | h2
          · simp only [List.mem_append, List.mem_singleton] at h2
            rcases h2 with h2 | h2
            · exact Or.inl h2
            · exact Or.inr ⟨id, name, input, _, h2⟩
          · exact Or.inr h2

/-- Helper for C7: every follow-up request the compiled stateful loop submits
beyond the incoming trace is the full accumulated history, ending with the
assistant message whose last block is the sanitised tool use and a user
message carrying the tool result with the same id. -/
theorem buildLoop_trace_spec (env : Env) (m : List (String × String)) :
    ∀ (blocks : List ContentBlock) (hist : List ConversationMessage)
      (ac : List ContentBlock) (ft : List String) (k j : Nat)
      (tr : List (List ConversationMessage)) (msgs : List ConversationMessage),
      msgs ∈ (Build.loop env m blocks hist ac ft k j tr).2.2 →
      msgs ∈ tr ∨ ∃ h2 c i san args rt,
        msgs = h2 ++ [ConversationMessage.mk .assistant (c ++ [.toolUse i san args]),
                      ConversationMessage.mk .user [.toolResult i rt]] := by
  intro blocks
  induction blocks with
  | nil =>
    intro hist ac ft k j tr msgs h
    exact Or.inl h
  | cons b rest ih =>
    intro hist ac ft k j tr msgs h
    cases b with
    | text t =>
      rw [Build.loop] at h
      exact ih hist (ac ++ [.text t]) (ft ++ [t]) k j tr msgs h
    | toolResult i c =>
      rw [Build.loop] at h
      exact ih hist ac ft k j tr msgs h
    | toolUse id name input =>
      rw [Build.loop] at h
      generalize hc : env.callTool k
          (resolveMcpToolName m (sanitizeToolName (optimizeQuery name input).1)
            (optimizeQuery name input).1) (optimizeQuery name input).2 = c at h
      cases c with
      | error err =>
        dsimp only at h
        exact ih hist ac _ (k + 1) j tr msgs h
      | ok rc =>
        dsimp only at h
        generalize hf : env.followUp j
            (hist ++ [ConversationMessage.mk Role.assistant (ac ++ [ContentBlock.toolUse id
                (sanitizeToolName (optimizeQuery name input).1) (optimizeQuery name input).2]),
              ConversationMessage.mk Role.user [ContentBlock.toolResult id
                (decodeResultText env.parse env.stringify rc)]]) = f at h
        cases f with
        | error e =>
          simp only [List.mem_append, List.mem_singleton] at h
          rcases h with h | h
          · exact Or.inl h
          · exact Or.inr ⟨hist, ac, id, _, _, _, h⟩
        | ok fub =>
          have step : ∀ (hist3 : List ConversationMessage) (ft3 : List String),
              msgs ∈ (Build.loop env m rest hist3
                (ac ++ [ContentBlock.toolUse id
                  (sanitizeToolName (optimizeQuery name input).1)
                  (optimizeQuery name input).2]) ft3 (k + 1) (j + 1)
                (tr ++ [hist ++ [ConversationMessage.mk Role.assistant
                  (ac ++ [ContentBlock.toolUse id
                    (sanitizeToolName (optimizeQuery name input).1)
                    (optimizeQuery name input).2]),
                  ConversationMessage.mk Role.user [ContentBlock.toolResult id
                    (decodeResultText env.parse env.stringify rc)]]])).2.2 →
              msgs ∈ tr ∨ ∃ h2 c2 i san args rt,
                msgs = h2 ++ [ConversationMessage.mk .assistant (c2 ++ [.toolUse i san args]),
                              ConversationMessage.mk .user [.toolResult i rt]] := by
            intro hist3 ft3 hmem
            rcases ih hist3 _ ft3 (k + 1) (j + 1) _ msgs hmem with h2 | h2
            · simp only [List.mem_append, List.mem_singleton] at h2
              rcases h2 with h2 | h2
              · exact Or.inl h2
              · exact Or.inr ⟨hist, ac, id, _, _, _, h2⟩
            · exact Or.inr h2
          cases fub with
          | nil => exact step _ _ h
          | cons fb fbs =>
            cases fb with
            | text t => exact step _ _ h
            | toolUse a b c2 => exact step _ _ h
            | toolResult a b => exact step _ _ h

/-- Concrete client state and environment for the C7 counterexample: a prior
exchange already sits in the persistent history when a stateful tool turn
runs. -/
def c7env : Env :=
  { parse := fun _ => none
    stringify := fun _ => ""
    firstResponse := fun _ => .ok [.toolUse "t1" "x" {}]
    callTool := fun _ _ _ => .ok (.str "{}")
    followUp := fun _ _ => .ok [] }

/-- Prior history for the C7 counterexample. -/
def c7st : State :=
  { conversationHistory := [{ role := .user, content := [.text "hi"] },
                            { role := .assistant, content := [.text "hello"] }] }

/-- C7 counterexample: the compiled stateful client submits the full history
as the follow-up exchange, so its role sequence is
user, assistant, user, assistant, user — not exactly user, assistant, user as
the claim states. -/
theorem c7_followUp_counterexample :
    ((Build.processQuery c7env c7st "q2").2.2.map
        (fun ms => ms.map (fun m2 => m2.role)))
      = [[Role.user, .assistant, .user, .assistant, .user]]
    ∧ [Role.user, .assistant, .user, .assistant, .user]
      ≠ [Role.user, .assistant, .user] := by
  exact ⟨rfl, by decide⟩

/-- C7 as amended: every follow-up exchange built by the stateless branch is
exactly the three messages user, assistant (carrying the tool-use block),
user (carrying the tool-result block whose tool_use_id equals the tool-use
id); the compiled stateful branch instead submits the entire accumulated
history as the follow-up exchange, whose final two messages are the assistant
message ending in the sanitised tool-use block and a user message carrying
the tool result with the matching id. -/
theorem c7_alternation :
    (∀ (env : Env) (m : List (String × String)) (u : ConversationMessage)
        (blocks : List ContentBlock) (k j : Nat) (ft : List String)
        (msgs : List ConversationMessage),
      msgs ∈ (Index.statelessLoop env m u blocks k j ft []).2 →
      ∃ id name input rt,
        msgs = followUpMessages u (.toolUse id name input) (.toolResult id rt))
    ∧ (∀ (u : ConversationMessage) (tu tres : ContentBlock),
        (followUpMessages u tu tres).map (fun m2 => m2.role)
          = [u.role, .assistant, .user])
    ∧ (∀ (env : Env) (m : List (String × String)) (blocks : List ContentBlock)
        (hist : List ConversationMessage) (ac : List ContentBlock)
        (ft : List String) (k j : Nat) (msgs : List ConversationMessage),
      msgs ∈ (Build.loop env m blocks hist ac ft k j []).2.2 →
      ∃ h2 c i san args rt,
        msgs = h2 ++ [ConversationMessage.mk .assistant (c ++ [.toolUse i san args]),
                      ConversationMessage.mk .user [.toolResult i rt]]) := by
  refine ⟨?_, fun u tu tres => rfl, ?_⟩
  · intro env m u blocks k j ft msgs h
    rcases statelessLoop_trace_spec env m u blocks k j ft [] msgs h with h2 | h2
    · simp at h2
    · exact h2
  · intro env m blocks hist ac ft k j msgs h
    rcases buildLoop_trace_spec env m blocks hist ac ft k j [] msgs h with h2 | h2
    · simp at h2
    · exact h2

/-- Concrete environment for the C7 witness. -/
def c7wenv : Env :=
  { parse := fun _ => none
    stringify := fun _ => ""
    firstResponse := fun _ => .ok []
    callTool := fun _ _ _ => .ok (.str "ok")
    followUp := fun _ _ => .ok [] }

/-- C7 witness: the single follow-up exchange of a concrete stateless run has
the followUpMessages shape, and its role sequence is user, assistant, user. -/
theorem c7_alternation_witness :
    (∃ id name input rt,
      [({ role := .user, content := [.text "q"] } : ConversationMessage),
       { role := .assistant, content := [.toolUse "i" "t" {}] },
       { role := .user, content := [.toolResult "i" ""] }]
        = followUpMessages { role := .user, content := [.text "q"] }
            (.toolUse id name input) (.toolResult id rt))
    ∧ (followUpMessages { role := .user, content := [.text "q"] }
        (.toolUse "i" "t" {}) (.toolResult "i" "")).map (fun m2 => m2.role)
      = [Role.user, .assistant, .user] := by
  constructor
  · exact c7_alternation.1 c7wenv [] { role := .user, content := [.text "q"] }
      [.toolUse "i" "t" {}] 0 0 [] _ (by decide)
  · exact c7_alternation.2.1 { role := .user, content := [.text "q"] }
      (.toolUse "i" "t" {}) (.toolResult "i" "")

/-- Helper for C4: whether cleaning the attribute names throws depends only
on the names, not on the expressions, so a clean that succeeded for the query
also succeeds for the fallback scan. -/
theorem clean_ok_of_clean_ok (names : Option (List (String × String)))
    (exprs : List String) (cn : Option (List (String × String)))
    (h : Dynamo.cleanExpressionAttributeNames names exprs = .ok cn) :
    ∀ exprs2 : List String, ∃ cn2,
      Dynamo.cleanExpressionAttributeNames names exprs2 = .ok cn2 := by
  intro exprs2
  cases names with
  | none => exact ⟨none, rfl⟩
  | some kvs =>
    by_cases hk : kvs.any (fun p => p.1 == "#") = true
    · simp [Dynamo.cleanExpressionAttributeNames, hk] at h
    · refine ⟨if (kvs.filter
          (fun p => jsIncludes (String.intercalate " " exprs2) p.1)).length > 0
        then some (kvs.filter
          (fun p => jsIncludes (String.intercalate " " exprs2) p.1))
        else none, ?_⟩
      unfold Dynamo.cleanExpressionAttributeNames
      dsimp only
      rw [if_neg hk]

/-- Helper for C4: the shape of scanTable when the name cleaning succeeds. -/
theorem scanTable_trace (env : Dynamo.DynEnv) (p : Dynamo.DynParams)
    (cn2 : Option (List (String × String)))
    (hclean : Dynamo.cleanExpressionAttributeNames p.expressionAttributeNames
        (Dynamo.presentExprs [p.filterExpression]) = .ok cn2) :
    (Dynamo.scanTable env p).2 = [Dynamo.DynCmd.scan (Dynamo.mkScanCmd p cn2)]
    ∧ (∀ e2, env.sendScan (Dynamo.mkScanCmd p cn2) = .error e2 →
        (Dynamo.scanTable env p).1.success = false
        ∧ (Dynamo.scanTable env p).1.items = []) := by
  constructor
  · unfold Dynamo.scanTable
    rw [hclean]
    dsimp only
    cases env.sendScan (Dynamo.mkScanCmd p cn2) <;> rfl
  · intro e2 hsend
    unfold Dynamo.scanTable
    rw [hclean]
    dsimp only
    rw [hsend]
    exact ⟨rfl, rfl⟩

/-- C4: when the backend rejects a queryTable call with a ValidationException
whose message matches one of the three fallback patterns, exactly one scan
fallback is issued (the trace is the query command followed by a single scan
command), the scan command carries the key-condition text in its
filter-expression slot, the returned message is the scan result's message
prefixed with the conversion note, and if the fallback scan also fails, the
single returned result has success false and empty items. -/
theorem c4_queryFallback (env : Dynamo.DynEnv) (p : Dynamo.DynParams)
    (cn : Option (List (String × String))) (e : Dynamo.DynErr)
    (hclean : Dynamo.cleanExpressionAttributeNames p.expressionAttributeNames
        (Dynamo.presentExprs [p.keyConditionExpression, p.filterExpression])
      = .ok cn)
    (hsend : env.sendQuery (Dynamo.mkQueryCmd p cn) = .error e)
    (hfb : Dynamo.isFallbackError e = true) :
    (Dynamo.queryTable env p).1.message
      = "Query converted to scan: "
        ++ (Dynamo.scanTable env (Dynamo.fallbackScanParams p)).1.message
    ∧ (Dynamo.queryTable env p).2
      = Dynamo.DynCmd.query (Dynamo.mkQueryCmd p cn)
        :: (Dynamo.scanTable env (Dynamo.fallbackScanParams p)).2
    ∧ (∃ cn2, (Dynamo.scanTable env (Dynamo.fallbackScanParams p)).2
        = [Dynamo.DynCmd.scan (Dynamo.mkScanCmd (Dynamo.fallbackScanParams p) cn2)]
        ∧ (Dynamo.mkScanCmd (Dynamo.fallbackScanParams p) cn2).filterExpression
          = p.keyConditionExpression)
    ∧ (∀ e2 sc,
        (Dynamo.scanTable env (Dynamo.fallbackScanParams p)).2
          = [Dynamo.DynCmd.scan sc] →
        env.sendScan sc = .error e2 →
        (Dynamo.queryTable env p).1.success = false
        ∧ (Dynamo.queryTable env p).1.items = []) := by
  have hquery : Dynamo.queryTable env p
      = ({ (Dynamo.scanTable env (Dynamo.fallbackScanParams p)).1 with
            message := "Query converted to scan: "
              ++ (Dynamo.scanTable env (Dynamo.fallbackScanParams p)).1.message },
         Dynamo.DynCmd.query (Dynamo.mkQueryCmd p cn)
           :: (Dynamo.scanTable env (Dynamo.fallbackScanParams p)).2) := by
    unfold Dynamo.queryTable
    rw [hclean]
    dsimp only
    rw [hsend]
    dsimp only
    rw [if_pos hfb]
  obtain ⟨cn2, hclean2⟩ := clean_ok_of_clean_ok p.expressionAttributeNames _ cn
    hclean (Dynamo.presentExprs [(Dynamo.fallbackScanParams p).filterExpression])
  have hsc := scanTable_trace env (Dynamo.fallbackScanParams p) cn2 hclean2
  refine ⟨by rw [hquery], by rw [hquery], ⟨cn2, hsc.1, rfl⟩, ?_⟩
  intro e2 sc htr hsend2
  have hsceq : sc = Dynamo.mkScanCmd (Dynamo.fallbackScanParams p) cn2 := by
    rw [hsc.1] at htr
    injection htr with h1 _
    injection h1 with h2
    exact h2.symm
  subst hsceq
  have hfail := hsc.2 e2 hsend2
  rw [hquery]
  exact ⟨hfail.1, hfail.2⟩

/-- Concrete backend for the C4 witness: the query is rejected with a
matching validation failure and the fallback scan is rejected as well. -/
def c4env : Dynamo.DynEnv :=
  { sendQuery := fun _ => .error
      { name := "ValidationException",
        message := "Query condition missed key schema element: Name" }
    sendScan := fun _ => .error
      { name := "ResourceNotFoundException", message := "missing table" } }

/-- Concrete params for the C4 witness. -/
def c4params : Dynamo.DynParams :=
  { tableName := "People", keyConditionExpression := some "Age > :a" }

/-- C4 witness: on the concrete double failure the result message carries the
conversion note and the single combined failure has success false and empty
items. -/
theorem c4_queryFallback_witness :
    (Dynamo.queryTable c4env c4params).1.message
      = "Query converted to scan: "
        ++ (Dynamo.scanTable c4env (Dynamo.fallbackScanParams c4params)).1.message
    ∧ (Dynamo.queryTable c4env c4params).1.success = false
    ∧ (Dynamo.queryTable c4env c4params).1.items = [] := by
  have h := c4_queryFallback c4env c4params none
    { name := "ValidationException",
      message := "Query condition missed key schema element: Name" }
    rfl rfl (by decide)
  obtain ⟨cn2, htr, -⟩ := h.2.2.1
  exact ⟨h.1, h.2.2.2 { name := "ResourceNotFoundException", message := "missing table" }
    _ htr rfl⟩

/-- C9 witness: an absent query is rejected by both handlers with 400, an
error body, and no orchestration. -/
theorem c9_badRequest_witness :
    (Endpoint.startEndpointHandler [] .undef (.ok "r")).1.status = 400
    ∧ (∃ msg, (Endpoint.startEndpointHandler [] .undef (.ok "r")).1.body
        = .errorField msg)
    ∧ (Endpoint.startEndpointHandler [] .undef (.ok "r")).2.1 = false
    ∧ (Endpoint.endpointJsHandler true .undef (.ok "r")).1.status = 400 := by
  have h := c9_badRequest [] .undef (.ok "r") (.inl rfl)
  exact ⟨h.1.1, h.1.2.1, h.1.2.2, (h.2 rfl).1⟩

end MCPEndpoint
